import Mathlib

/-!
Shallow embedding of the CodePilot indexing and retrieval pipeline
(src/scripts/parser.py, src/scripts/embedder.py, src/scripts/retriever.py,
src/gpt/query_engine.py, src/create_index.py) together with proofs about
the claims of the specification.

Embedding vectors are modelled as lists of integers (the external provider
returns fixed-size numeric vectors; the claims under study do not depend on
float rounding).  Python exceptions are modelled with `Except PyErr`.
-/

set_option autoImplicit false

namespace CodePilot

/-- Embedding vector returned by the external provider. -/
abbrev Vec := List Int

/-- Python exceptions that the modelled code can raise. -/
inductive PyErr where
  | fileNotFound (msg : String)
  | indexError (msg : String)
  | attributeError (msg : String)
  | providerError (msg : String)
  deriving DecidableEq

/-- Message carried by an exception, as used in `except` blocks that format `str(e)`. -/
def pyErrMsg : PyErr → String
  | .fileNotFound m => m
  | .indexError m => m
  | .attributeError m => m
  | .providerError m => m

/-- Metadata record built by `embed_chunks` (embedder.py lines 49-57) and persisted
in `metadata.json`.  The `distance` key is absent in persisted records (`none`) and
is inserted by `search_similar_chunks` on retrieved records. -/
structure Chunk where
  id : Nat
  type_ : String
  name : String
  file : String
  line : Nat
  content : String
  docstring : String
  distance : Option Int := none
  deriving DecidableEq

/-- Default record used only to give `List.getD` a total type; never observed
in the proved statements (all accesses are in range). -/
def dfltChunk : Chunk :=
  { id := 0, type_ := "", name := "", file := "", line := 0, content := "", docstring := "" }

/-- Input chunk dictionary as loaded from `code_chunks.json`: every key except
`content` is accessed with `chunk.get(...)` and may be absent. -/
structure RawChunk where
  type_ : Option String := none
  name : Option String := none
  file : Option String := none
  line : Option Nat := none
  content : String
  docstring : Option String := none
  deriving DecidableEq

/-- Python truthiness of `chunk.get("docstring")`: present and non-empty. -/
def truthyStr : Option String → Bool
  | none => false
  | some s => s != ""

/-- Text sent to the embedding provider for one chunk (embedder.py lines 34-36):
docstring, blank line, content when the docstring is truthy; content alone otherwise. -/
def embedText (chunk : RawChunk) : String :=
  if truthyStr chunk.docstring then (chunk.docstring.getD "") ++ "\n\n" ++ chunk.content
  else chunk.content

/-- Metadata record stored for the chunk at position `i` (embedder.py lines 49-57). -/
def chunkMeta (i : Nat) (chunk : RawChunk) : Chunk :=
  { id := i
    type_ := chunk.type_.getD "unknown"
    name := chunk.name.getD "unknown"
    file := chunk.file.getD "unknown"
    line := chunk.line.getD 0
    content := chunk.content
    docstring := chunk.docstring.getD ""
    distance := none }

/-- The `for i, chunk in enumerate(chunks)` loop of `embed_chunks`, started at
counter value `i`: one provider call and one metadata record per chunk, appended
in order. -/
def embedChunksFrom (provider : String → Vec) (i : Nat) :
    List RawChunk → List Vec × List Chunk
  | [] => ([], [])
  | c :: rest =>
    let tail := embedChunksFrom provider (i + 1) rest
    (provider (embedText c) :: tail.1, chunkMeta i c :: tail.2)

/-- Model of `embed_chunks` (embedder.py lines 19-60).  The first component is the
list of embedding rows (`np.array` of one row per chunk), the second the metadata list. -/
def embed_chunks (provider : String → Vec) (chunks : List RawChunk) :
    List Vec × List Chunk :=
  embedChunksFrom provider 0 chunks

theorem embedChunksFrom_len (provider : String → Vec) (chunks : List RawChunk) (i : Nat) :
    (embedChunksFrom provider i chunks).2.length = chunks.length ∧
    (embedChunksFrom provider i chunks).1.length = chunks.length := by
  induction chunks generalizing i with
  | nil => simp [embedChunksFrom]
  | cons c rest ih =>
    simp only [embedChunksFrom, List.length_cons]
    exact ⟨by simpa using (ih (i + 1)).1, by simpa using (ih (i + 1)).2⟩

theorem embedChunksFrom_id (provider : String → Vec) (chunks : List RawChunk)
    (i j : Nat) (h : j < (embedChunksFrom provider i chunks).2.length) :
    ((embedChunksFrom provider i chunks).2.get ⟨j, h⟩).id = i + j := by
  induction chunks generalizing i j with
  | nil => simp [embedChunksFrom] at h
  | cons c rest ih =>
    cases j with
    | zero => simp [embedChunksFrom, chunkMeta]
    | succ j =>
      have h' : j < (embedChunksFrom provider (i + 1) rest).2.length := by
        simpa [embedChunksFrom] using h
      have ih' := ih (i + 1) j h'
      simp only [embedChunksFrom, List.get_cons_succ]
      rw [ih']
      omega

/-- C5: for every provider and input chunk list, `embed_chunks` yields a metadata
list whose length equals the number of embedding rows, and the record at every
position `i` carries `id = i`: ids are dense, unique, and equal to the row index. -/
theorem C5_ids_dense_and_parallel (provider : String → Vec) (chunks : List RawChunk) :
    (embed_chunks provider chunks).2.length = (embed_chunks provider chunks).1.length ∧
    ∀ i (h : i < (embed_chunks provider chunks).2.length),
      ((embed_chunks provider chunks).2.get ⟨i, h⟩).id = i := by
  refine ⟨?_, ?_⟩
  · have h := embedChunksFrom_len provider chunks 0
    simp only [embed_chunks]
    rw [h.1, h.2]
  · intro i h
    simpa using embedChunksFrom_id provider chunks 0 i h

/-- Witness for C5 at a concrete two-chunk input. -/
theorem C5_witness :
    ((embed_chunks (fun _ => [0]) [{content := "a"}, {content := "b"}]).2.get
      ⟨1, by decide⟩).id = 1 :=
  (C5_ids_dense_and_parallel (fun _ => [0]) [{content := "a"}, {content := "b"}]).2 1 (by decide)

/-! ## Index store state

The files the pipeline reads and writes: `code_chunks.json` at the repository
root, and `metadata.json` / `code_index.faiss` under `data/index`.  A FAISS
`IndexFlatL2` is exhaustive, so the persisted index is modelled by the list of
stored vectors. -/

/-- Filesystem state visible to the pipeline. -/
structure FS where
  chunksFile : Option (List RawChunk) := none
  metaFile : Option (List Chunk) := none
  indexFile : Option (List Vec) := none
  dirExists : Bool := false
  deriving DecidableEq

/-! ## Retriever (src/scripts/retriever.py) -/

/-- Squared L2 distance used by `faiss.IndexFlatL2`. -/
def sqDist (a b : Vec) : Int :=
  ((a.zip b).map (fun p => (p.1 - p.2) ^ 2)).sum

/-- Comparison used to rank scored vectors: ascending distance, ties broken by
ascending original row index (the order FAISS reports exact search results in). -/
def distLe (x y : Int × Int) : Bool :=
  x.1 < y.1 || (x.1 == y.1 && x.2 ≤ y.2)

/-- Insertion of one scored row into a ranked list. -/
def insortHit (x : Int × Int) : List (Int × Int) → List (Int × Int)
  | [] => [x]
  | y :: ys => if distLe x y then x :: y :: ys else y :: insortHit x ys

/-- Ranking of all scored rows. -/
def sortHits : List (Int × Int) → List (Int × Int)
  | [] => []
  | x :: xs => insortHit x (sortHits xs)

/-- Distance value FAISS reports for padding entries when fewer than `k`
neighbors exist (a huge float; its exact value is irrelevant to the claims). -/
def faissPadDist : Int := 340282346638528859811704183484516925440

/-- Model of `index.search(query, k)` on an `IndexFlatL2` holding `vecs`:
the `min k N` nearest rows as `(distance, row index)` pairs in ascending order,
padded to exactly `k` entries with `(faissPadDist, -1)` when `k` exceeds the
number of stored vectors. -/
def faissSearch (vecs : List Vec) (q : Vec) (k : Nat) : List (Int × Int) :=
  let scored := vecs.enum.map (fun p => (sqDist q p.2, (p.1 : Int)))
  let top := (sortHits scored).take k
  top ++ List.replicate (k - top.length) (faissPadDist, -1)

/-- Python list indexing semantics: non-negative indices below the length are
direct, negative indices at least `-len` count from the end, anything else
raises `IndexError` (`none`). -/
def pyIndex (len : Nat) (i : Int) : Option Nat :=
  if 0 ≤ i then (if i < (len : Int) then some i.toNat else none)
  else (if 0 ≤ (len : Int) + i then some ((len : Int) + i).toNat else none)

/-- Assignment `chunk["distance"] = d` where `chunk` aliases `metadata[p]`:
the record inside the loaded metadata list is updated in place. -/
def setDistAt : List Chunk → Nat → Int → List Chunk
  | [], _, _ => []
  | c :: cs, 0, d => { c with distance := some d } :: cs
  | c :: cs, p + 1, d => c :: setDistAt cs p d

/-- The joining loop of `search_similar_chunks` (retriever.py lines 92-97).
State: the loaded metadata list (mutated through the aliases) and the reversed
list of resolved row positions appended to `relevant_chunks`.  A hit index is
kept whenever `idx < len(metadata)`; `metadata[idx]` is then read with Python
indexing semantics (negative indices wrap, a too-negative index raises). -/
def searchJoin : List (Int × Int) → List Chunk → List Nat →
    Except PyErr (List Chunk × List Nat)
  | [], md, acc => .ok (md, acc.reverse)
  | (d, idx) :: rest, md, acc =>
    if idx < (md.length : Int) then
      match pyIndex md.length idx with
      | none => .error (.indexError "list index out of range")
      | some p => searchJoin rest (setDistAt md p d) (p :: acc)
    else searchJoin rest md acc

/-- Model of `load_index_and_metadata` (retriever.py lines 19-44): each artifact
missing raises `FileNotFoundError`; otherwise both are loaded. -/
def load_index_and_metadata (fs : FS) : Except PyErr (List Vec × List Chunk) :=
  match fs.indexFile with
  | none => .error (.fileNotFound "FAISS index not found: data/index/code_index.faiss")
  | some vecs =>
    match fs.metaFile with
    | none => .error (.fileNotFound "Metadata file not found: data/index/metadata.json")
    | some md => .ok (vecs, md)

/-- Model of `embed_query` (retriever.py lines 46-65): a single provider call,
whose failure propagates (there is no try block around it). -/
def embed_query (provider : String → Except PyErr Vec) (query : String) :
    Except PyErr Vec :=
  provider query

/-- Model of `search_similar_chunks` (retriever.py lines 67-99).  The first
component of the result is `relevant_chunks`; since its entries alias the
loaded metadata records, each entry denotes the final state of the record it
points to.  The second component is the loaded metadata list after the loop,
exposing the in-memory state of the loaded records. -/
def search_similar_chunks (fs : FS) (provider : String → Except PyErr Vec)
    (query : String) (top_k : Nat) : Except PyErr (List Chunk × List Chunk) :=
  match load_index_and_metadata fs with
  | .error e => .error e
  | .ok loaded =>
    match embed_query provider query with
    | .error e => .error e
    | .ok qe =>
      match searchJoin (faissSearch loaded.1 qe top_k) loaded.2 [] with
      | .error e => .error e
      | .ok out => .ok (out.2.map (fun p => out.1.getD p dfltChunk), out.1)

/-- Record with the distance key removed, used to compare the non-distance
content of metadata records. -/
def clearDistance (c : Chunk) : Chunk := { c with distance := none }

/-- Concrete stored metadata record for the C1 scenario (one stored chunk). -/
def c1Meta : Chunk :=
  { id := 0, type_ := "function", name := "main", file := "sample.py", line := 1,
    content := "def main(): pass", docstring := "" }

/-- Index directory holding exactly one embedding row and one metadata record. -/
def c1FS : FS := { metaFile := some [c1Meta], indexFile := some [[0]] }

/-- The single stored record as it appears in all three joined results: the
FAISS padding entries resolve to `metadata[-1]`, the last (here only) record,
whose distance key ends up holding the padding distance. -/
def c1Hit : Chunk := { c1Meta with distance := some faissPadDist }

/-- C1: with one stored chunk and `top_k = 3`, `search_similar_chunks` returns
three results, not at most one, and all three are joined to the same metadata
record: FAISS pads the missing neighbors with index -1, the defensive check
`idx < len(metadata)` passes for -1, and `metadata[-1]` joins the last record.
This contradicts the intent of the bound check (comment: ensure index is valid)
and the spec sentences about never padding. -/
theorem C1_padding_escapes_bound_check :
    search_similar_chunks c1FS (fun _ => .ok [1]) "q" 3 =
      .ok ([c1Hit, c1Hit, c1Hit], [c1Hit]) ∧
    ¬ ([c1Hit, c1Hit, c1Hit].length ≤ [c1Meta].length) :=
  ⟨rfl, by decide⟩

theorem setDistAt_map_clear (md : List Chunk) (p : Nat) (d : Int) :
    (setDistAt md p d).map clearDistance = md.map clearDistance := by
  induction md generalizing p with
  | nil => rfl
  | cons c cs ih =>
    cases p with
    | zero => simp [setDistAt, clearDistance]
    | succ p => simp [setDistAt, ih]

theorem searchJoin_map_clear : ∀ (hits : List (Int × Int)) (md : List Chunk)
    (acc : List Nat) (out : List Chunk × List Nat),
    searchJoin hits md acc = .ok out →
    out.1.map clearDistance = md.map clearDistance := by
  intro hits
  induction hits with
  | nil =>
    intro md acc out h
    simp only [searchJoin, Except.ok.injEq] at h
    rw [← h]
  | cons hit rest ih =>
    intro md acc out h
    obtain ⟨d, idx⟩ := hit
    simp only [searchJoin] at h
    split at h
    · split at h
      · simp at h
      · rw [ih _ _ _ h, setDistAt_map_clear]
    · exact ih _ _ _ h

theorem embedChunksFrom_distance_none (p : String → Vec) (chunks : List RawChunk)
    (i : Nat) (m : Chunk) (hm : m ∈ (embedChunksFrom p i chunks).2) :
    m.distance = none := by
  induction chunks generalizing i with
  | nil => simp [embedChunksFrom] at hm
  | cons c rest ih =>
    simp only [embedChunksFrom, List.mem_cons] at hm
    rcases hm with h | h
    · rw [h]; rfl
    · exact ih _ h

/-- Concrete stored metadata record for the C7 scenario. -/
def c7Meta : Chunk :=
  { id := 0, type_ := "class", name := "Calculator", file := "sample.py", line := 5,
    content := "class Calculator:", docstring := "" }

/-- Index directory with one stored vector matching the query exactly. -/
def c7FS : FS := { metaFile := some [c7Meta], indexFile := some [[5]] }

/-- C7 counterexample: a query mutates the loaded metadata record in place.
The assignment `chunk["distance"] = ...` writes through the alias into the
loaded metadata list, so after the search the loaded list no longer equals what
was read from disk - refuting the claim that no loaded chunk record is ever
mutated. -/
theorem C7_counterexample :
    search_similar_chunks c7FS (fun _ => .ok [5]) "q" 1 =
      .ok ([{ c7Meta with distance := some 0 }], [{ c7Meta with distance := some 0 }]) ∧
    ({ c7Meta with distance := some 0 } : Chunk) ≠ c7Meta :=
  ⟨rfl, by decide⟩

/-- C7 amended: a query mutates the loaded metadata records in memory, but only
their `distance` key (erasing distance recovers exactly the records read from
disk), and persisted metadata built by `embed_chunks` never carries a distance
key, so distance appears only in query results, never in the artifacts. -/
theorem C7_amended_distance_only (fs : FS) (provider : String → Except PyErr Vec)
    (query : String) (top_k : Nat) (vecs : List Vec) (md : List Chunk)
    (rel mdFin : List Chunk)
    (hload : load_index_and_metadata fs = .ok (vecs, md))
    (hrun : search_similar_chunks fs provider query top_k = .ok (rel, mdFin)) :
    mdFin.map clearDistance = md.map clearDistance ∧
    ∀ (p : String → Vec) (chunks : List RawChunk) (m : Chunk),
      m ∈ (embed_chunks p chunks).2 → m.distance = none := by
  refine ⟨?_, fun p chunks m hm => embedChunksFrom_distance_none p chunks 0 m hm⟩
  unfold search_similar_chunks at hrun
  rw [hload] at hrun
  dsimp only at hrun
  cases hq : embed_query provider query with
  | error e => rw [hq] at hrun; simp at hrun
  | ok qe =>
    rw [hq] at hrun
    dsimp only at hrun
    cases hj : searchJoin (faissSearch vecs qe top_k) md [] with
    | error e => rw [hj] at hrun; simp at hrun
    | ok out =>
      rw [hj] at hrun
      dsimp only at hrun
      simp only [Except.ok.injEq, Prod.mk.injEq] at hrun
      rw [← hrun.2]
      exact searchJoin_map_clear _ _ _ _ hj

/-- Witness for C7 amended at the concrete C7 scenario. -/
theorem C7_amended_witness :
    ([{ c7Meta with distance := some 0 }].map clearDistance = [c7Meta].map clearDistance) ∧
    (chunkMeta 0 { content := "x" }).distance = none := by
  have h := C7_amended_distance_only c7FS (fun _ => .ok [5]) "q" 1 [[5]] [c7Meta]
    [{ c7Meta with distance := some 0 }] [{ c7Meta with distance := some 0 }] rfl rfl
  exact ⟨h.1, h.2 (fun _ => []) [{ content := "x" }] _ (by simp [embed_chunks, embedChunksFrom])⟩

/-! ## Query orchestrator (src/gpt/query_engine.py, plus retriever.py lines 101-141) -/

/-- One rendered block of `format_retrieved_chunks` (retriever.py lines 130-139). -/
def formatChunkBlock (i : Nat) (chunk : Chunk) : String :=
  "--- Chunk " ++ toString (i + 1) ++ " ---\n" ++
  "File: " ++ chunk.file ++ "\n" ++
  "Type: " ++ chunk.type_ ++ "\n" ++
  "Name: " ++ chunk.name ++ "\n" ++
  (if chunk.docstring != "" then "Docstring: " ++ chunk.docstring ++ "\n" else "") ++
  "Code:\n" ++ chunk.content ++ "\n\n"

/-- Model of `format_retrieved_chunks` (retriever.py lines 115-141). -/
def format_retrieved_chunks (chunks : List Chunk) : String :=
  if chunks.isEmpty then "No relevant code chunks found."
  else
    "Here are the relevant code snippets:\n\n" ++
      String.join (chunks.enum.map (fun p => formatChunkBlock p.1 p.2))

/-- Model of `get_context_for_query` (retriever.py lines 101-113): no try block,
so a retrieval failure propagates. -/
def get_context_for_query (fs : FS) (provider : String → Except PyErr Vec)
    (query : String) (top_k : Nat) : Except PyErr String :=
  match search_similar_chunks fs provider query top_k with
  | .error e => .error e
  | .ok r => .ok (format_retrieved_chunks r.1)

/-- Model of `format_prompt` (query_engine.py lines 22-42). -/
def format_prompt (query context : String) : String :=
  "You are an AI coding assistant. Answer the following question about the codebase based on the provided context.\n\nContext:\n"
    ++ context ++ "\n\nQuestion: " ++ query ++
    "\n\nPlease provide a clear, concise, and helpful answer. If the context does not contain enough information to answer the question, say so and suggest what additional information might be needed.\n"

/-- Model of `get_gpt_response` (query_engine.py lines 44-68): the completion
call sits inside a try block, so a provider failure is converted into an
error-describing string - this function is total. -/
def get_gpt_response (completeProvider : String → String → Except PyErr String)
    (prompt model : String) : String :=
  match completeProvider model prompt with
  | .ok text => text
  | .error e => "Error getting response from GPT: " ++ pyErrMsg e

/-- Result dictionary of `process_query`. -/
structure QueryResult where
  query : String
  context : String
  response : String
  deriving DecidableEq

/-- Model of `process_query` (query_engine.py lines 70-96): the context
retrieval is not guarded by any try block, so its exceptions propagate to the
caller; only the completion step is total. -/
def process_query (fs : FS) (embedProvider : String → Except PyErr Vec)
    (completeProvider : String → String → Except PyErr String)
    (query : String) (top_k : Nat) (model : String) : Except PyErr QueryResult :=
  match get_context_for_query fs embedProvider query top_k with
  | .error e => .error e
  | .ok context =>
    let prompt := format_prompt query context
    let response := get_gpt_response completeProvider prompt model
    .ok { query := query, context := context, response := response }

/-- Valid one-chunk index pair used for the embedding-failure counterexample. -/
def c2FS : FS := { metaFile := some [c7Meta], indexFile := some [[0]] }

/-- C2 counterexample: with the index artifact missing, `process_query` raises
`FileNotFoundError` instead of returning a result; with valid artifacts but a
failing embedding provider, the provider error likewise propagates uncaught.
Both refute the claim that `process_query` always returns a populated result
and never propagates an unhandled exception. -/
theorem C2_counterexample :
    process_query {} (fun _ => .ok [0]) (fun _ _ => .ok "answer") "q" 5 "gpt-4" =
      .error (.fileNotFound "FAISS index not found: data/index/code_index.faiss") ∧
    process_query c2FS (fun _ => .error (.providerError "rate limited"))
        (fun _ _ => .ok "answer") "q" 5 "gpt-4" =
      .error (.providerError "rate limited") :=
  ⟨rfl, rfl⟩

theorem mem_insortHit (x y : Int × Int) (l : List (Int × Int)) (h : x ∈ insortHit y l) :
    x = y ∨ x ∈ l := by
  induction l with
  | nil => simpa [insortHit] using h
  | cons z zs ih =>
    simp only [insortHit] at h
    split at h
    · exact List.mem_cons.mp h
    · rcases List.mem_cons.mp h with h1 | h2
      · exact Or.inr (by simp [h1])
      · rcases ih h2 with h3 | h4
        · exact Or.inl h3
        · exact Or.inr (by simp [h4])

theorem mem_sortHits (x : Int × Int) (l : List (Int × Int)) (h : x ∈ sortHits l) :
    x ∈ l := by
  induction l with
  | nil => simp [sortHits] at h
  | cons z zs ih =>
    simp only [sortHits] at h
    rcases mem_insortHit x z _ h with h1 | h2
    · simp [h1]
    · simp [ih h2]

/-- Every index FAISS reports is a stored row index or the padding value -1;
in particular it is at least -1. -/
theorem faissSearch_idx (vecs : List Vec) (q : Vec) (k : Nat) (hit : Int × Int)
    (h : hit ∈ faissSearch vecs q k) : -1 ≤ hit.2 := by
  simp only [faissSearch, List.mem_append] at h
  rcases h with h | h
  · have h2 := mem_sortHits _ _ (List.mem_of_mem_take h)
    simp only [List.mem_map] at h2
    obtain ⟨p, _, he⟩ := h2
    rw [← he]
    have : (0 : Int) ≤ (p.1 : Int) := Int.natCast_nonneg _
    omega
  · rw [List.eq_of_mem_replicate h]

theorem setDistAt_length (md : List Chunk) (p : Nat) (d : Int) :
    (setDistAt md p d).length = md.length := by
  induction md generalizing p with
  | nil => rfl
  | cons c cs ih => cases p <;> simp [setDistAt, ih]

/-- The joining loop never raises as long as the loaded metadata is nonempty
and every hit index is at least -1 (as FAISS guarantees): nonnegative indices
below the bound resolve directly and -1 resolves to the last record. -/
theorem searchJoin_ok : ∀ (hits : List (Int × Int)) (md : List Chunk) (acc : List Nat),
    md ≠ [] → (∀ hit ∈ hits, -1 ≤ hit.2) →
    ∃ out, searchJoin hits md acc = .ok out := by
  intro hits
  induction hits with
  | nil => exact fun md acc _ _ => ⟨(md, acc.reverse), rfl⟩
  | cons hit rest ih =>
    intro md acc hne hidx
    obtain ⟨d, idx⟩ := hit
    have hidx0 : -1 ≤ idx := hidx (d, idx) (List.mem_cons_self _ _)
    have hrest : ∀ h ∈ rest, -1 ≤ h.2 := fun h hm => hidx h (List.mem_cons_of_mem _ hm)
    have hmdlen : 1 ≤ md.length := by
      cases md with
      | nil => exact absurd rfl hne
      | cons a as => simp
    simp only [searchJoin]
    split
    · rename_i hlt
      have hres : ∃ p, pyIndex md.length idx = some p := by
        unfold pyIndex
        by_cases h0 : 0 ≤ idx
        · simp only [h0, if_true, hlt, if_pos]
          exact ⟨idx.toNat, rfl⟩
        · have hm1 : idx = -1 := by omega
          subst hm1
          have : (0 : Int) ≤ (md.length : Int) + (-1) := by
            have : (1 : Int) ≤ (md.length : Int) := by exact_mod_cast hmdlen
            omega
          simp only [h0, if_false, this, if_pos]
          exact ⟨_, rfl⟩
      obtain ⟨p, hp⟩ := hres
      rw [hp]
      refine ih (setDistAt md p d) (p :: acc) ?_ hrest
      intro hcontra
      have := setDistAt_length md p d
      rw [hcontra] at this
      simp at this
      omega
    · exact ih md acc hne hrest

theorem format_retrieved_chunks_ne_empty (chunks : List Chunk) :
    format_retrieved_chunks chunks ≠ "" := by
  unfold format_retrieved_chunks
  split
  · decide
  · intro h
    have hlen := congrArg String.length h
    rw [String.length_append] at hlen
    have : 0 < ("Here are the relevant code snippets:\n\n").length := by decide
    simp only [String.length_empty] at hlen
    omega

/-- C2 amended: `process_query` returns a populated result whenever the two
index artifacts are present, the loaded metadata is nonempty, and the query
embedding succeeds; in that case even a completion-provider failure is folded
into the response string.  When an artifact is missing or the embedding call
fails, the exception propagates to the caller (see the counterexample). -/
theorem C2_amended_total_on_successful_retrieval (fs : FS)
    (ep : String → Except PyErr Vec) (cp : String → String → Except PyErr String)
    (query model : String) (top_k : Nat) (vecs : List Vec) (md : List Chunk) (qe : Vec)
    (hidx : fs.indexFile = some vecs) (hmd : fs.metaFile = some md)
    (hne : md ≠ []) (hep : ep query = .ok qe) :
    ∃ r : QueryResult, process_query fs ep cp query top_k model = .ok r ∧
      r.query = query ∧ r.context ≠ "" := by
  have hload : load_index_and_metadata fs = .ok (vecs, md) := by
    unfold load_index_and_metadata
    rw [hidx, hmd]
  obtain ⟨out, hout⟩ := searchJoin_ok (faissSearch vecs qe top_k) md [] hne
    (fun hit hm => faissSearch_idx vecs qe top_k hit hm)
  have hsearch : search_similar_chunks fs ep query top_k =
      .ok (out.2.map (fun p => out.1.getD p dfltChunk), out.1) := by
    unfold search_similar_chunks
    rw [hload]
    dsimp only
    rw [show embed_query ep query = .ok qe from hep]
    dsimp only
    rw [hout]
  have hctx : get_context_for_query fs ep query top_k =
      .ok (format_retrieved_chunks (out.2.map (fun p => out.1.getD p dfltChunk))) := by
    unfold get_context_for_query
    rw [hsearch]
  exact ⟨_, by unfold process_query; rw [hctx], rfl, format_retrieved_chunks_ne_empty _⟩

/-- Witness for C2 amended: concrete one-chunk index, embedding succeeds, and
the completion provider fails, yet a populated result is returned. -/
theorem C2_amended_witness :
    ∃ r : QueryResult,
      process_query c2FS (fun _ => .ok [0]) (fun _ _ => .error (.providerError "down"))
        "q" 5 "gpt-4" = .ok r ∧ r.query = "q" ∧ r.context ≠ "" :=
  C2_amended_total_on_successful_retrieval c2FS (fun _ => .ok [0])
    (fun _ _ => .error (.providerError "down")) "q" "gpt-4" 5 [[0]] [c7Meta] [0]
    rfl rfl (by decide) rfl

/-! ## Index store write path and build entrypoint
(src/scripts/embedder.py lines 62-124, src/create_index.py) -/

/-- Model of `create_faiss_index` (embedder.py lines 87-106): reading
`embeddings.shape[1]` from an empty chunk list raises `IndexError` (the
`np.array` of an empty list has shape `(0,)`); otherwise an exhaustive
`IndexFlatL2` holding exactly the input rows is built. -/
def create_faiss_index (embeddings : List Vec) : Except PyErr (List Vec) :=
  match embeddings with
  | [] => .error (.indexError "tuple index out of range")
  | _ :: _ => .ok embeddings

/-- Model of `store_embeddings` (embedder.py lines 62-85).  The writes go
directly to the final paths - metadata first, then the index - with no
temporary file and no swap.  The third component lists the filesystem state
after each mutation, i.e. every state an interruption (or a concurrent reader)
can observe. -/
def store_embeddings (embeddings : List Vec) (metadata : List Chunk) (fs : FS) :
    Except PyErr Unit × FS × List FS :=
  let fs1 : FS := { fs with dirExists := true }
  let fs2 : FS := { fs1 with metaFile := some metadata }
  match create_faiss_index embeddings with
  | .error e => (.error e, fs2, [fs1, fs2])
  | .ok index =>
    let fs3 : FS := { fs2 with indexFile := some index }
    (.ok (), fs3, [fs1, fs2, fs3])

/-- Model of `load_code_chunks` (embedder.py lines 108-124): a missing
`code_chunks.json` raises `FileNotFoundError`. -/
def load_code_chunks (fs : FS) : Except PyErr (List RawChunk) :=
  match fs.chunksFile with
  | none => .error (.fileNotFound "Code chunks file not found: code_chunks.json")
  | some chunks => .ok chunks

/-- Model of `main` in create_index.py (lines 15-32): create the directory,
load the pre-generated chunks, embed them, store the artifacts.  No try block,
so every exception propagates (non-zero process exit). -/
def createIndexMain (fs : FS) (provider : String → Vec) : Except PyErr Unit × FS :=
  let fs0 : FS := { fs with dirExists := true }
  match load_code_chunks fs with
  | .error e => (.error e, fs0)
  | .ok chunks =>
    let em := embed_chunks provider chunks
    let st := store_embeddings em.1 em.2 fs0
    (st.1, st.2.1)

/-- Previously stored metadata record for the C4 scenario. -/
def c4mOld : Chunk :=
  { id := 0, type_ := "function", name := "old", file := "old.py", line := 1,
    content := "def old(): pass", docstring := "" }

/-- New metadata records for the C4 scenario. -/
def c4mA : Chunk :=
  { id := 0, type_ := "function", name := "a", file := "a.py", line := 1,
    content := "def a(): pass", docstring := "" }

def c4mB : Chunk :=
  { id := 1, type_ := "function", name := "b", file := "a.py", line := 3,
    content := "def b(): pass", docstring := "" }

/-- Filesystem holding a previously built valid pair: one metadata record and
one embedding row. -/
def c4fs0 : FS := { metaFile := some [c4mOld], indexFile := some [[7]], dirExists := true }

/-- Filesystem state observed between the two writes of a new two-chunk build. -/
def c4mid : FS := (store_embeddings [[1], [2]] [c4mA, c4mB] c4fs0).2.2.getD 1 c4fs0

/-- C4 counterexample: a rebuild over an existing valid one-chunk pair, stopped
after the metadata write and before the index write, has already destroyed the
previous metadata and exposes a mismatched pair (2 metadata records against 1
embedding row).  There is no temporary location and no atomic swap in
`store_embeddings` - both writes go directly to the final paths. -/
theorem C4_counterexample :
    c4mid.metaFile ≠ c4fs0.metaFile ∧
    c4mid.metaFile.map List.length ≠ c4mid.indexFile.map List.length := by
  decide

/-- C4 amended: `store_embeddings` builds both artifacts fully in memory but
writes them directly to their final locations, metadata first and then the
index, with no temporary files and no swap.  On any nonempty embedding matrix
the write succeeds and the final state holds the new matching pair, but the
intermediate state after the metadata write still holds the old index file
alongside the new metadata, so an interruption there leaves a mismatched pair
and the previous metadata is not left intact. -/
theorem C4_amended_direct_unatomic_writes (embeddings : List Vec)
    (metadata : List Chunk) (fs : FS) (hne : embeddings ≠ []) :
    (store_embeddings embeddings metadata fs).1 = .ok () ∧
    (store_embeddings embeddings metadata fs).2.1 =
      { fs with dirExists := true, metaFile := some metadata, indexFile := some embeddings } ∧
    (store_embeddings embeddings metadata fs).2.2.getD 1 fs =
      { fs with dirExists := true, metaFile := some metadata } := by
  cases embeddings with
  | nil => exact absurd rfl hne
  | cons v rest => exact ⟨rfl, rfl, rfl⟩

/-- Witness for C4 amended at the concrete C4 scenario. -/
theorem C4_amended_witness :
    (store_embeddings [[1], [2]] [c4mA, c4mB] c4fs0).1 = .ok () ∧
    (store_embeddings [[1], [2]] [c4mA, c4mB] c4fs0).2.1 =
      { c4fs0 with dirExists := true, metaFile := some [c4mA, c4mB],
                   indexFile := some [[1], [2]] } ∧
    (store_embeddings [[1], [2]] [c4mA, c4mB] c4fs0).2.2.getD 1 c4fs0 =
      { c4fs0 with dirExists := true, metaFile := some [c4mA, c4mB] } :=
  C4_amended_direct_unatomic_writes [[1], [2]] [c4mA, c4mB] c4fs0 (by decide)

/-- Filesystem whose chunks file holds an empty chunk list and which holds no
previous artifacts. -/
def c6fs : FS := { chunksFile := some [] }

/-- C6 counterexample: an empty corpus makes the build entrypoint crash with an
uncaught `IndexError` from `embeddings.shape[1]` - not a report of an empty
corpus - and it does so only after `metadata.json` has already been written
with zero records, so an artifact is left behind. -/
theorem C6_counterexample :
    (createIndexMain c6fs (fun _ => [0])).1 =
      .error (.indexError "tuple index out of range") ∧
    (createIndexMain c6fs (fun _ => [0])).2.metaFile = some [] ∧
    c6fs.metaFile = none :=
  ⟨rfl, rfl, rfl⟩

/-- C6 amended: a codebase yielding zero chunks makes the build entrypoint fail
(uncaught `IndexError` raised by `create_faiss_index` reading
`embeddings.shape[1]`, hence a non-zero exit, though the error does not name an
empty corpus), and no index file is ever written, so no zero-row valid pair is
persisted; however a zero-row `metadata.json` is written before the failure. -/
theorem C6_amended_empty_corpus (fs : FS) (provider : String → Vec)
    (h : fs.chunksFile = some []) :
    (createIndexMain fs provider).1 = .error (.indexError "tuple index out of range") ∧
    (createIndexMain fs provider).2.indexFile = fs.indexFile ∧
    (createIndexMain fs provider).2.metaFile = some [] := by
  unfold createIndexMain load_code_chunks
  rw [h]
  exact ⟨rfl, rfl, rfl⟩

/-- Witness for C6 amended at the concrete empty-corpus filesystem. -/
theorem C6_amended_witness :
    (createIndexMain c6fs (fun _ => [7])).1 =
      .error (.indexError "tuple index out of range") ∧
    (createIndexMain c6fs (fun _ => [7])).2.indexFile = c6fs.indexFile ∧
    (createIndexMain c6fs (fun _ => [7])).2.metaFile = some [] :=
  C6_amended_empty_corpus c6fs (fun _ => [7]) rfl

/-- C9: when `code_chunks.json` is absent the build entrypoint raises
`FileNotFoundError`; no artifact is written (the metadata and index files are
untouched) and no embedding call is made (the outcome is identical for every
provider).  The entrypoint never walks or parses the codebase: its only input
is the pre-generated chunks file. -/
theorem C9_chunks_file_required (fs : FS) (p1 p2 : String → Vec)
    (h : fs.chunksFile = none) :
    (createIndexMain fs p1).1 =
      .error (.fileNotFound "Code chunks file not found: code_chunks.json") ∧
    (createIndexMain fs p1).2.metaFile = fs.metaFile ∧
    (createIndexMain fs p1).2.indexFile = fs.indexFile ∧
    createIndexMain fs p1 = createIndexMain fs p2 := by
  unfold createIndexMain load_code_chunks
  rw [h]
  exact ⟨rfl, rfl, rfl, rfl⟩

/-- Witness for C9 on an empty filesystem with two distinct providers. -/
theorem C9_witness :
    (createIndexMain {} (fun _ => [1])).1 =
      .error (.fileNotFound "Code chunks file not found: code_chunks.json") ∧
    (createIndexMain {} (fun _ => [1])).2.metaFile = FS.metaFile {} ∧
    (createIndexMain {} (fun _ => [1])).2.indexFile = FS.indexFile {} ∧
    createIndexMain {} (fun _ => [1]) = createIndexMain {} (fun _ => [2]) :=
  C9_chunks_file_required {} (fun _ => [1]) (fun _ => [2]) rfl

/-! ## Source parser (src/scripts/parser.py)

Python AST nodes are modelled with the data the parser reads: constructor kind,
name, line span, docstring (the result of `ast.get_docstring`), and child
statements.  `stmt` stands for any statement that is neither a `ClassDef` nor a
`FunctionDef`. -/

inductive PyNode where
  | classDef (name : String) (lineno endLineno : Nat) (docstring : Option String)
      (body : List PyNode)
  | funcDef (name : String) (lineno endLineno : Nat) (docstring : Option String)
      (body : List PyNode)
  | stmt (lineno endLineno : Nat)

/-- Child statements of a node. -/
def PyNode.body : PyNode → List PyNode
  | .classDef _ _ _ _ b => b
  | .funcDef _ _ _ _ b => b
  | .stmt _ _ => []

def PyNode.lineno : PyNode → Nat
  | .classDef _ l _ _ _ => l
  | .funcDef _ l _ _ _ => l
  | .stmt l _ => l

def PyNode.endLineno : PyNode → Nat
  | .classDef _ _ e _ _ => e
  | .funcDef _ _ e _ _ => e
  | .stmt _ e => e

/-- Result of `ast.get_docstring(node)`. -/
def PyNode.docstring : PyNode → Option String
  | .classDef _ _ _ d _ => d
  | .funcDef _ _ _ d _ => d
  | .stmt _ _ => none

mutual

def PyNode.size : PyNode → Nat
  | .classDef _ _ _ _ b => 1 + sizeList b
  | .funcDef _ _ _ _ b => 1 + sizeList b
  | .stmt _ _ => 1

def sizeList : List PyNode → Nat
  | [] => 0
  | n :: rest => PyNode.size n + sizeList rest

end

/-- Breadth-first traversal with explicit fuel: pop the front node, push its
children at the back.  With fuel equal to the total node count the deque
empties before the fuel does (each step consumes exactly one node), so
`walkBFS` below is exactly the order of `ast.walk`. -/
def walkFuel : Nat → List PyNode → List PyNode
  | 0, _ => []
  | _ + 1, [] => []
  | fuel + 1, n :: rest => n :: walkFuel fuel (rest ++ n.body)

/-- Model of `ast.walk` over a module body. -/
def walkBFS (tree : List PyNode) : List PyNode :=
  walkFuel (sizeList tree) tree

theorem sizeList_append (a b : List PyNode) :
    sizeList (a ++ b) = sizeList a + sizeList b := by
  induction a with
  | nil => simp [sizeList]
  | cons n rest ih => simp [sizeList, ih]; omega

theorem PyNode.size_pos (n : PyNode) : 1 ≤ n.size := by
  cases n <;> simp [PyNode.size]

theorem size_eq_one_add (n : PyNode) : n.size = 1 + sizeList n.body := by
  cases n <;> simp [PyNode.size, PyNode.body, sizeList]

/-- Fuel adequacy: any fuel at least the total node count yields the same
traversal, so `walkBFS` is the fuel-independent breadth-first walk. -/
theorem walkFuel_eq (f1 : Nat) : ∀ (q : List PyNode) (f2 : Nat),
    sizeList q ≤ f1 → sizeList q ≤ f2 → walkFuel f1 q = walkFuel f2 q := by
  induction f1 with
  | zero =>
    intro q f2 h1 _
    cases q with
    | nil => cases f2 <;> rfl
    | cons n rest =>
      exfalso
      have := n.size_pos
      simp [sizeList] at h1
      omega
  | succ f1 ih =>
    intro q f2 h1 h2
    cases q with
    | nil => cases f2 <;> rfl
    | cons n rest =>
      have hpos := n.size_pos
      have hsz : sizeList (n :: rest) = 1 + sizeList (rest ++ n.body) := by
        simp [sizeList, sizeList_append, size_eq_one_add n]
        omega
      cases f2 with
      | zero =>
        exfalso
        simp [sizeList] at h2
        omega
      | succ f2 =>
        simp only [walkFuel]
        rw [ih (rest ++ n.body) f2 (by omega) (by omega)]

/-- Model of `get_source_and_docstring` (parser.py lines 75-101): the source
text is the line range from the entity declaration through its last line
(clamped to the file length), and the docstring defaults to the empty string. -/
def get_source_and_docstring (node : PyNode) (sourceLines : List String) :
    String × String :=
  let startLine := node.lineno - 1
  let endLine := min node.endLineno sourceLines.length
  let sourceCode := String.intercalate "\n" ((sourceLines.drop startLine).take (endLine - startLine))
  (sourceCode, node.docstring.getD "")

structure MethodInfo where
  name : String
  line : Nat
  source_code : String
  docstring : String
  deriving DecidableEq

structure ClassInfo where
  name : String
  file : String
  line : Nat
  source_code : String
  docstring : String
  methods : List MethodInfo
  deriving DecidableEq

structure FunctionInfo where
  name : String
  file : String
  line : Nat
  source_code : String
  docstring : String
  deriving DecidableEq

/-- Method extraction from the direct children of a class body
(parser.py lines 134-145). -/
def methodOf (sourceLines : List String) (child : PyNode) : Option MethodInfo :=
  match child with
  | .funcDef name lineno endL ds body =>
    let sd := get_source_and_docstring (.funcDef name lineno endL ds body) sourceLines
    some { name := name, line := lineno, source_code := sd.1, docstring := sd.2 }
  | _ => none

/-- Class record built for one `ClassDef` node (parser.py lines 121-147). -/
def classOf (filePath : String) (sourceLines : List String) (node : PyNode) :
    Option ClassInfo :=
  match node with
  | .classDef name lineno endL ds body =>
    let sd := get_source_and_docstring (.classDef name lineno endL ds body) sourceLines
    some { name := name, file := filePath, line := lineno, source_code := sd.1,
           docstring := sd.2, methods := body.filterMap (methodOf sourceLines) }
  | _ => none

/-- Model of `extract_classes` (parser.py lines 103-152).  The `parsed`
argument is the outcome of opening and `ast.parse`-ing the file: `none` when
either raises, in which case the except branch returns the empty list. -/
def extract_classes (filePath : String) (parsed : Option (List PyNode × List String)) :
    List ClassInfo :=
  match parsed with
  | none => []
  | some (tree, sourceLines) => (walkBFS tree).filterMap (classOf filePath sourceLines)

/-- Access of `node.parent` (parser.py line 174): `ast` nodes carry no such
attribute and nothing in the repository ever sets one, so the access raises
`AttributeError` unconditionally. -/
def nodeParentAttr (_node : PyNode) : Except PyErr PyNode :=
  .error (.attributeError "FunctionDef object has no attribute parent")

/-- The traversal loop of `extract_functions` (parser.py lines 172-184),
including the `node.parent` access; an exception aborts the loop. -/
def extractFunctionsGo (filePath : String) (sourceLines : List String) :
    List PyNode → List FunctionInfo → Except PyErr (List FunctionInfo)
  | [], acc => .ok acc.reverse
  | node :: rest, acc =>
    match node with
    | .funcDef name lineno endL ds body =>
      match nodeParentAttr (.funcDef name lineno endL ds body) with
      | .error e => .error e
      | .ok parent =>
        match parent with
        | .classDef _ _ _ _ _ => extractFunctionsGo filePath sourceLines rest acc
        | _ =>
          let sd := get_source_and_docstring (.funcDef name lineno endL ds body) sourceLines
          extractFunctionsGo filePath sourceLines rest
            ({ name := name, file := filePath, line := lineno,
               source_code := sd.1, docstring := sd.2 } :: acc)
    | _ => extractFunctionsGo filePath sourceLines rest acc

/-- Model of `extract_functions` (parser.py lines 154-189): the whole body sits
inside a try block whose except branch returns the empty list. -/
def extract_functions (filePath : String) (parsed : Option (List PyNode × List String)) :
    List FunctionInfo :=
  match parsed with
  | none => []
  | some (tree, sourceLines) =>
    match extractFunctionsGo filePath sourceLines (walkBFS tree) [] with
    | .ok functions => functions
    | .error _ => []

/-- Code chunk record emitted by `generate_code_chunks` (parser.py
lines 191-247).  `cls` models the `class` key (methods only), `num_methods`
the `metadata.num_methods` key (classes only). -/
structure CodeChunkRec where
  type_ : String
  name : String
  cls : Option String := none
  file : String
  line : Nat
  content : String
  docstring : String
  num_methods : Option Nat := none
  deriving DecidableEq

/-- The class chunk followed by its method chunks (parser.py lines 206-232). -/
def classChunks (filePath : String) (c : ClassInfo) : List CodeChunkRec :=
  { type_ := "class", name := c.name, file := filePath, line := c.line,
    content := c.source_code, docstring := c.docstring,
    num_methods := some c.methods.length } ::
  c.methods.map (fun m =>
    { type_ := "method", name := m.name, cls := some c.name, file := filePath,
      line := m.line, content := m.source_code, docstring := m.docstring })

/-- Model of `generate_code_chunks` (parser.py lines 191-247). -/
def generate_code_chunks (filePath : String) (classes : List ClassInfo)
    (functions : List FunctionInfo) : List CodeChunkRec :=
  ((classes.filter (fun c => c.file == filePath)).map (classChunks filePath)).flatten ++
  (functions.filter (fun f => f.file == filePath)).map (fun f =>
    { type_ := "function", name := f.name, file := filePath, line := f.line,
      content := f.source_code, docstring := f.docstring })

/-- Python `s.endswith(suffix)`, computed on the character lists. -/
def strEnds (s suffix : String) : Bool :=
  suffix.data.isSuffixOf s.data

/-- A file reached by the walk: its path and, for a readable parsable Python
file, its parse outcome (AST and source lines). -/
structure SrcFile where
  path : String
  parsed : Option (List PyNode × List String)

/-- The result dictionary of `parse_codebase`. -/
structure ParseResult where
  files : List String
  classes : List ClassInfo
  functions : List FunctionInfo
  code_chunks : List CodeChunkRec

/-- One iteration of the per-file loop of `parse_codebase` (parser.py
lines 34-44): only paths ending in `.py` are processed. -/
def parseStep (acc : ParseResult) (f : SrcFile) : ParseResult :=
  if strEnds f.path ".py" then
    let classes := extract_classes f.path f.parsed
    let functions := extract_functions f.path f.parsed
    let chunks := generate_code_chunks f.path classes functions
    { acc with classes := acc.classes ++ classes,
               functions := acc.functions ++ functions,
               code_chunks := acc.code_chunks ++ chunks }
  else acc

/-- Model of `parse_codebase` (parser.py lines 9-46) applied to the walked
file list: the result records every file, but classes, functions and chunks
are only collected from `.py` paths. -/
def parse_codebase (files : List SrcFile) : ParseResult :=
  files.foldl parseStep
    { files := files.map (fun f => f.path), classes := [], functions := [],
      code_chunks := [] }

/-- Source lines of the C3 scenario file: a class `Calculator` with a method
`add` and a top-level function `main`. -/
def sampleLines : List String :=
  [ "class Calculator:",
    "    def add(self, a, b):",
    "        return a + b",
    "",
    "def main():",
    "    calc = Calculator()" ]

/-- Module body of the parsed C3 scenario file.  The `funcDef` for `main` has
the module itself as syntactic parent. -/
def sampleTree : List PyNode :=
  [ .classDef "Calculator" 1 3 none [.funcDef "add" 2 3 none [.stmt 3 3]],
    .funcDef "main" 5 6 none [.stmt 6 6] ]

theorem extractFunctionsGo_cases (filePath : String) (sourceLines : List String) :
    ∀ (nodes : List PyNode) (acc : List FunctionInfo),
      extractFunctionsGo filePath sourceLines nodes acc = .ok acc.reverse ∨
      ∃ e, extractFunctionsGo filePath sourceLines nodes acc = .error e := by
  intro nodes
  induction nodes with
  | nil => exact fun acc => Or.inl rfl
  | cons node rest ih =>
    intro acc
    cases node with
    | classDef name l e d b => exact ih acc
    | stmt l e => exact ih acc
    | funcDef name l e d b => exact Or.inr ⟨_, rfl⟩

/-- The top-level-function extractor returns the empty list for every input:
the very first `FunctionDef` the walk meets raises `AttributeError` on
`node.parent` (swallowed by the except branch), and a walk without any
`FunctionDef` has nothing to collect. -/
theorem extract_functions_empty (filePath : String)
    (parsed : Option (List PyNode × List String)) :
    extract_functions filePath parsed = [] := by
  cases parsed with
  | none => rfl
  | some p =>
    obtain ⟨tree, lines⟩ := p
    show (match extractFunctionsGo filePath lines (walkBFS tree) [] with
          | .ok functions => functions
          | .error _ => []) = []
    rcases extractFunctionsGo_cases filePath lines (walkBFS tree) [] with h | ⟨e, h⟩
    · rw [h]
      rfl
    · rw [h]

/-- C3: the code loses every top-level function.  For the Calculator/main
scenario file the extractor returns no function at all (first conjunct: it
returns the empty list for every file), and the generated chunks are only the
class chunk and the method chunk - no `{kind=function, name=main}` chunk is
emitted, although `main` sits at module level in the input tree. -/
theorem C3_top_level_functions_lost :
    (∀ (filePath : String) (parsed : Option (List PyNode × List String)),
        extract_functions filePath parsed = []) ∧
    (generate_code_chunks "sample.py"
        (extract_classes "sample.py" (some (sampleTree, sampleLines)))
        (extract_functions "sample.py" (some (sampleTree, sampleLines)))).map
      (fun c => (c.type_, c.name, c.cls)) =
      [("class", "Calculator", none), ("method", "add", some "Calculator")] :=
  ⟨extract_functions_empty, by decide⟩

theorem mem_classChunks_file (filePath : String) (c : ClassInfo)
    (ch : CodeChunkRec) (h : ch ∈ classChunks filePath c) : ch.file = filePath := by
  simp only [classChunks, List.mem_cons, List.mem_map] at h
  rcases h with rfl | ⟨m, _, rfl⟩ <;> rfl

theorem generate_code_chunks_file (filePath : String) (classes : List ClassInfo)
    (functions : List FunctionInfo) (ch : CodeChunkRec)
    (h : ch ∈ generate_code_chunks filePath classes functions) : ch.file = filePath := by
  simp only [generate_code_chunks, List.mem_append, List.mem_flatten, List.mem_map] at h
  rcases h with ⟨l, ⟨c, _, rfl⟩, hcl⟩ | ⟨f, _, rfl⟩
  · exact mem_classChunks_file filePath c ch hcl
  · rfl

theorem extract_classes_file (filePath : String)
    (parsed : Option (List PyNode × List String)) (cl : ClassInfo)
    (h : cl ∈ extract_classes filePath parsed) : cl.file = filePath := by
  cases parsed with
  | none => simp [extract_classes] at h
  | some p =>
    simp only [extract_classes, List.mem_filterMap] at h
    obtain ⟨node, _, hc⟩ := h
    cases node with
    | classDef name l e d b =>
      simp only [classOf] at hc
      rw [← Option.some.injEq] at hc
      cases hc
      rfl
    | funcDef name l e d b => simp [classOf] at hc
    | stmt l e => simp [classOf] at hc

/-- Invariant carried through the per-file fold: the files list is untouched
and every collected record points at a `.py` path. -/
theorem parse_foldl_inv (files : List SrcFile) :
    ∀ (acc : ParseResult),
      (∀ ch ∈ acc.code_chunks, strEnds ch.file ".py" = true) →
      (∀ cl ∈ acc.classes, strEnds cl.file ".py" = true) →
      (∀ fn ∈ acc.functions, strEnds fn.file ".py" = true) →
      (files.foldl parseStep acc).files = acc.files ∧
      (∀ ch ∈ (files.foldl parseStep acc).code_chunks, strEnds ch.file ".py" = true) ∧
      (∀ cl ∈ (files.foldl parseStep acc).classes, strEnds cl.file ".py" = true) ∧
      (∀ fn ∈ (files.foldl parseStep acc).functions, strEnds fn.file ".py" = true) := by
  induction files with
  | nil => exact fun acc h1 h2 h3 => ⟨rfl, h1, h2, h3⟩
  | cons f rest ih =>
    intro acc h1 h2 h3
    simp only [List.foldl_cons]
    by_cases hpy : strEnds f.path ".py" = true
    · have hstep : parseStep acc f =
          { acc with
            classes := acc.classes ++ extract_classes f.path f.parsed,
            functions := acc.functions ++ extract_functions f.path f.parsed,
            code_chunks := acc.code_chunks ++
              generate_code_chunks f.path (extract_classes f.path f.parsed)
                (extract_functions f.path f.parsed) } := by
        unfold parseStep
        rw [hpy]
        rfl
      rw [hstep]
      refine ih _ ?_ ?_ ?_
      · intro ch hch
        rcases List.mem_append.mp hch with h | h
        · exact h1 ch h
        · rw [generate_code_chunks_file f.path _ _ ch h]
          exact hpy
      · intro cl hcl
        rcases List.mem_append.mp hcl with h | h
        · exact h2 cl h
        · rw [extract_classes_file f.path f.parsed cl h]
          exact hpy
      · intro fn hfn
        rcases List.mem_append.mp hfn with h | h
        · exact h3 fn h
        · rw [extract_functions_empty f.path f.parsed] at h
          simp at h
    · have hstep : parseStep acc f = acc := by
        unfold parseStep
        rw [Bool.of_not_eq_true hpy]
        rfl
      rw [hstep]
      exact ih acc h1 h2 h3

/-- C10: `parse_codebase` records every walked file in its files list, but
every code chunk, class record and function record it returns originates from
a path ending in `.py`; non-Python files contribute nothing. -/
theorem C10_only_python_contributes (files : List SrcFile) :
    (parse_codebase files).files = files.map (fun f => f.path) ∧
    (∀ ch ∈ (parse_codebase files).code_chunks, strEnds ch.file ".py" = true) ∧
    (∀ cl ∈ (parse_codebase files).classes, strEnds cl.file ".py" = true) ∧
    (∀ fn ∈ (parse_codebase files).functions, strEnds fn.file ".py" = true) := by
  have h := parse_foldl_inv files
    { files := files.map (fun f => f.path), classes := [], functions := [],
      code_chunks := [] }
    (by intro ch hch; simp at hch) (by intro cl hcl; simp at hcl)
    (by intro fn hfn; simp at hfn)
  exact ⟨h.1, h.2.1, h.2.2.1, h.2.2.2⟩

/-- Concrete file list for the C10 witness: one Python file with content, one
non-Python file. -/
def w10files : List SrcFile :=
  [ { path := "sample.py", parsed := some (sampleTree, sampleLines) },
    { path := "README.md", parsed := none } ]

/-- Default chunk record for total indexing in the witness statement. -/
def dfltCCR : CodeChunkRec :=
  { type_ := "", name := "", file := "", line := 0, content := "", docstring := "" }

/-- Witness for C10: the first chunk parsed out of the concrete file list does
come from a `.py` path. -/
theorem C10_witness :
    strEnds ((parse_codebase w10files).code_chunks.getD 0 dfltCCR).file ".py" = true :=
  (C10_only_python_contributes w10files).2.1 _ (by decide)

/-! ## Directory walk (src/scripts/parser.py lines 48-73) -/

/-- A directory tree entry. -/
inductive Entry where
  | file (name : String)
  | dir (name : String) (entries : List Entry)

/-- Names of the plain files among a directory's entries. -/
def fileNames (entries : List Entry) : List String :=
  entries.filterMap (fun e =>
    match e with
    | .file name => some name
    | .dir _ _ => none)

mutual

def Entry.size : Entry → Nat
  | .file _ => 1
  | .dir _ entries => 1 + entrySizeList entries

def entrySizeList : List Entry → Nat
  | [] => 0
  | e :: rest => Entry.size e + entrySizeList rest

end

/-- Depth-first top-down traversal with explicit fuel bounding the recursion
depth: the current directory with its file names first, then each
subdirectory recursively - including hidden subdirectories, which `os.walk`
does not prune. -/
def walkDirFuel : Nat → String → List Entry → List (String × List String)
  | 0, _, _ => []
  | fuel + 1, root, entries =>
    (root, fileNames entries) ::
      (entries.map (fun e =>
        match e with
        | .dir name sub => walkDirFuel fuel (root ++ "/" ++ name) sub
        | .file _ => [])).flatten

/-- Model of `os.walk(root)` (top-down).  The fuel strictly exceeds the total
entry count, hence the recursion depth, so the traversal is complete (see
`walkDirFuel_eq`). -/
def walkDir (root : String) (entries : List Entry) : List (String × List String) :=
  walkDirFuel (entrySizeList entries + 1) root entries

theorem size_le_of_mem (e : Entry) (entries : List Entry) (h : e ∈ entries) :
    Entry.size e ≤ entrySizeList entries := by
  induction entries with
  | nil => simp at h
  | cons a rest ih =>
    rcases List.mem_cons.mp h with rfl | h2
    · simp only [entrySizeList]
      omega
    · have := ih h2
      simp only [entrySizeList]
      omega

/-- Fuel adequacy: any fuel strictly above the total entry count yields the
same traversal, so `walkDir` is the fuel-independent depth-first walk. -/
theorem walkDirFuel_eq (f1 : Nat) : ∀ (f2 : Nat) (root : String) (entries : List Entry),
    entrySizeList entries < f1 → entrySizeList entries < f2 →
    walkDirFuel f1 root entries = walkDirFuel f2 root entries := by
  induction f1 with
  | zero => intro f2 root entries h1 _; omega
  | succ f1 ih =>
    intro f2 root entries h1 h2
    cases f2 with
    | zero => omega
    | succ f2 =>
      simp only [walkDirFuel, List.cons.injEq, true_and]
      apply congrArg List.flatten
      apply List.map_congr_left
      intro e he
      cases e with
      | file n => rfl
      | dir name sub =>
        have hs := size_le_of_mem (.dir name sub) entries he
        simp only [Entry.size] at hs
        exact ih f2 _ sub (by omega) (by omega)

/-- Python `s.startswith(p)`, computed on the character lists. -/
def strStarts (s p : String) : Bool :=
  p.data.isPrefixOf s.data

/-- Python `sub in s` (substring containment), computed on the character lists. -/
def strContainsSub (s sub : String) : Bool :=
  s.data.tails.any (fun t => sub.data.isPrefixOf t)

def pycacheName : String := "__pycache__"

/-- Model of `extract_files` (parser.py lines 48-73): walk the tree; for each
directory, keep a file unless its own name starts with a dot or the directory
path contains `__pycache__`, and record `os.path.join(root, filename)`. -/
def extract_files (directory : String) (entries : List Entry) : List String :=
  ((walkDir directory entries).map (fun rf =>
    rf.2.filterMap (fun filename =>
      if strStarts filename "." then none
      else if strContainsSub rf.1 pycacheName then none
      else some (rf.1 ++ "/" ++ filename)))).flatten

/-- C8 counterexample: a file under a hidden directory IS returned by the walk
(first conjunct), refuting the claim that files under hidden directories are
skipped; by contrast files under a `__pycache__` directory and files whose own
name is hidden are skipped (second and third conjuncts). -/
theorem C8_counterexample :
    extract_files "root" [.dir ".hidden" [.file "secret.py"]] =
      ["root/.hidden/secret.py"] ∧
    extract_files "root" [.dir "__pycache__" [.file "mod.pyc"]] = [] ∧
    extract_files "root" [.file ".env"] = [] := by
  decide

/-- C8 amended: the walk filters at the filename level only.  A walked file is
kept exactly when its own name does not start with a dot and its directory
path does not contain `__pycache__`; files under hidden directories (with
non-hidden names) are therefore included, not skipped. -/
theorem C8_amended_filename_level_filter (directory : String) (entries : List Entry) :
    (∀ p ∈ extract_files directory entries,
      ∃ root filename, p = root ++ "/" ++ filename ∧
        strStarts filename "." = false ∧
        strContainsSub root pycacheName = false) ∧
    (∀ rf ∈ walkDir directory entries, ∀ filename ∈ rf.2,
      strStarts filename "." = false →
      strContainsSub rf.1 pycacheName = false →
      rf.1 ++ "/" ++ filename ∈ extract_files directory entries) := by
  constructor
  · intro p hp
    simp only [extract_files, List.mem_flatten, List.mem_map] at hp
    obtain ⟨l, ⟨rf, _, rfl⟩, hpl⟩ := hp
    simp only [List.mem_filterMap] at hpl
    obtain ⟨filename, _, hkeep⟩ := hpl
    by_cases h1 : strStarts filename "." = true
    · rw [if_pos h1] at hkeep
      exact absurd hkeep (by simp)
    · rw [if_neg h1] at hkeep
      by_cases h2 : strContainsSub rf.1 pycacheName = true
      · rw [if_pos h2] at hkeep
        exact absurd hkeep (by simp)
      · rw [if_neg h2] at hkeep
        refine ⟨rf.1, filename, ?_, ?_, ?_⟩
        · exact (Option.some.injEq _ _ ▸ hkeep).symm
        · exact Bool.of_not_eq_true h1
        · exact Bool.of_not_eq_true h2
  · intro rf hrf filename hfn h1 h2
    simp only [extract_files, List.mem_flatten, List.mem_map]
    refine ⟨_, ⟨rf, hrf, rfl⟩, ?_⟩
    simp only [List.mem_filterMap]
    refine ⟨filename, hfn, ?_⟩
    rw [if_neg (by simp [h1]), if_neg (by simp [h2])]

/-- Witness for C8 amended on a concrete tree, instantiating the kept-file
direction at the walked file `root/src/a.py`. -/
theorem C8_amended_witness :
    ∃ root filename, "root/src/a.py" = root ++ "/" ++ filename ∧
      strStarts filename "." = false ∧
      strContainsSub root pycacheName = false :=
  (C8_amended_filename_level_filter "root" [.dir "src" [.file "a.py"]]).1
    "root/src/a.py" (by decide)

end CodePilot
